import Mathlib

/-!
Verification development for the `gows` crypto-ticker micro-service
(`main.go`).  The program keeps a fixed-size array of currency records
(`currencies`), a Go map from symbol to array index (`symbolToIndex`),
and a parallel array of per-slot mutexes.  A websocket ingestion loop
writes the six quote fields of a record; HTTP handlers read single
records or the whole array.

The embedding below translates the relevant Go functions into pure Lean
functions.  Go's global mutable state is made explicit: each function
takes the state it reads and returns the state it writes.  The websocket
connection is modelled as an oracle giving each request's outcome
(Go's three failure paths of an exchange — write error, read error,
unmarshal error — are collapsed into a `wsError` value).  Go map
indexing without the comma-ok form (`symbolToIndex[sym]`), which yields
the zero value `0` for an absent key, is modelled by `Option.getD 0`.
Array indexing that would panic in Go when out of range is modelled by
`Option`-valued results where it matters.
-/

namespace Gows

/-- Currency information served by the program (struct `currencyInfo`,
main.go lines 30-40).  All fields are decimal-as-string or plain strings. -/
structure currencyInfo where
  ID : String
  FullName : String
  Ask : String
  Bid : String
  Last : String
  Open : String
  Low : String
  High : String
  FeeCurrency : String
deriving DecidableEq, Repr

/-- The zero value of `currencyInfo`, as produced by Go's
`make([]currencyInfo, n)`: every string field is empty. -/
def emptyCurrencyInfo : currencyInfo :=
  { ID := "", FullName := "", Ask := "", Bid := "", Last := "", Open := ""
    Low := "", High := "", FeeCurrency := "" }

/-- Application configuration (struct `appConfiguration`, main.go 23-27). -/
structure appConfiguration where
  Hostname : String
  Port : String
  Symbols : List String
deriving DecidableEq, Repr

/-- Params of a ticker-update event (inner struct of `tickerUpdate`,
main.go 84-95).  `Timestamp` is Go's `time.Time`, modelled opaquely. -/
structure tickerParams where
  Ask : String
  Bid : String
  Last : String
  Open : String
  Low : String
  High : String
  Volume : String
  VolumeQuote : String
  Timestamp : String
  Symbol : String
deriving DecidableEq, Repr

/-- A ticker-update event (struct `tickerUpdate`, main.go 81-96). -/
structure tickerUpdate where
  Jsonrpc : String
  Method : String
  Params : tickerParams
deriving DecidableEq, Repr

/-! ### Key Registry: the `symbolToIndex` map built by `doConfig` -/

/-- One Go map insertion `m[key] = v`, as a function update on the lookup
function: the newest binding for a key shadows any older one. -/
def insertIdx (m : String → Option Nat) (key : String) (v : Nat) :
    String → Option Nat :=
  fun s => if s = key then some v else m s

/-- The loop `for i := range appConf.Symbols { symbolToIndex[appConf.Symbols[i]] = i }`
(main.go 75-77), threading the running index `i`. -/
def buildIndexAux (symbols : List String) (i : Nat) (m : String → Option Nat) :
    String → Option Nat :=
  match symbols with
  | [] => m
  | sym :: rest => buildIndexAux rest (i + 1) (insertIdx m sym i)

/-- The `symbolToIndex` map as built by `doConfig` from the configured
symbol list, as a lookup function (`none` = key absent). -/
def symbolToIndex (symbols : List String) : String → Option Nat :=
  buildIndexAux symbols 0 (fun _ => none)

/-- Index of the last occurrence of `s` in `l`, if any.  Specification
device used to characterise the last-write-wins Go map build. -/
def lastIdxOf? (l : List String) (s : String) : Option Nat :=
  match l with
  | [] => none
  | a :: t =>
    match lastIdxOf? t s with
    | some j => some (j + 1)
    | none => if a = s then some 0 else none

/-! ### doConfig: configuration and store allocation (main.go 57-78) -/

/-- Global state set up by `doConfig`: the configuration, the
`currencies` array and the `symbolToIndex` map. -/
structure ConfigState where
  appConf : appConfiguration
  currencies : List currencyInfo
  symbolIdx : String → Option Nat

/-- `doConfig` (main.go 57-78).  `envResult` models the outcome of
`envconfig.Process`: `some conf` when the environment parses, `none`
when it errors (in particular when the required `SYMBOLS` variable is
missing or empty).  On error the code falls back to the default
configuration BTCUSD, ETHBTC; then it allocates the zero-valued
`currencies` array, the per-slot lock array (implicit here) and builds
`symbolToIndex`. -/
def doConfig (envResult : Option appConfiguration) : ConfigState :=
  let conf :=
    match envResult with
    | some c => c
    | none => { Hostname := "localhost", Port := "8080", Symbols := ["BTCUSD", "ETHBTC"] }
  { appConf := conf
    currencies := List.replicate conf.Symbols.length emptyCurrencyInfo
    symbolIdx := symbolToIndex conf.Symbols }

/-! ### Snapshot Store writes: setCurrencyInfo (main.go 276-287) -/

/-- The six quote fields of the Snapshot Store contract
(`writeQuote(slot, {ask,bid,last,open,low,high})`). -/
structure quoteFields where
  Ask : String
  Bid : String
  Last : String
  Open : String
  Low : String
  High : String
deriving DecidableEq, Repr

/-- The six quote fields carried by a ticker-update event. -/
def quoteOfUpdate (tu : tickerUpdate) : quoteFields :=
  { Ask := tu.Params.Ask, Bid := tu.Params.Bid, Last := tu.Params.Last
    Open := tu.Params.Open, Low := tu.Params.Low, High := tu.Params.High }

/-- The six quote fields of a record. -/
def quoteOf (c : currencyInfo) : quoteFields :=
  { Ask := c.Ask, Bid := c.Bid, Last := c.Last
    Open := c.Open, Low := c.Low, High := c.High }

/-- The locked body of `setCurrencyInfo` (main.go 279-284): overwrite
exactly the six quote fields of one record, leaving the static fields. -/
def writeQuote (c : currencyInfo) (f : quoteFields) : currencyInfo :=
  { c with Ask := f.Ask, Bid := f.Bid, Last := f.Last
           Open := f.Open, Low := f.Low, High := f.High }

/-- `setCurrencyInfo` (main.go 276-287).  The index comes from the bare
map read `symbolToIndex[tu.Params.Symbol]` — Go yields `0` for an absent
key, hence `Option.getD 0`.  Result `none` models the runtime panic on
an out-of-range index (only reachable when the store is empty); in the
running program the index is always in range, and the function returns
the store with exactly the six quote fields of that one slot replaced. -/
def setCurrencyInfo (idx : String → Option Nat) (currencies : List currencyInfo)
    (tu : tickerUpdate) : Option (List currencyInfo) :=
  let currencyIndex := (idx tu.Params.Symbol).getD 0
  match currencies.get? currencyIndex with
  | none => none
  | some c => some (currencies.set currencyIndex (writeQuote c (quoteOfUpdate tu)))

/-! ### Snapshot Store reads: getSingleCurrency and getAllCurrencies -/

/-- Outcome of the `/currency/{symbol}` handler: either the unsupported
symbol message listing the configured symbols, or the JSON-encoded
record of the symbol's slot. -/
inductive singleCurrencyResult where
  | notFound (symbol : String) (supported : List String)
  | found (record : currencyInfo)
deriving DecidableEq, Repr

/-- `getSingleCurrency` (main.go 290-305).  Uses the comma-ok map read:
an unregistered symbol takes the early-return branch with the
unsupported-symbol message; a registered one returns a copy of its
record, taken under the slot's lock.  Result `none` models the panic on
an out-of-range index, unreachable when registry and store come from
`doConfig`. -/
def getSingleCurrency (symbols : List String) (idx : String → Option Nat)
    (currencies : List currencyInfo) (symbol : String) :
    Option singleCurrencyResult :=
  match idx symbol with
  | none => some (.notFound symbol symbols)
  | some currencyIndex => (currencies.get? currencyIndex).map .found

/-- `getAllCurrencies` (main.go 313-328): allocate a result array of the
same length and copy each record under its slot's lock, in index order. -/
def getAllCurrencies (currencies : List currencyInfo) : List currencyInfo :=
  (List.range currencies.length).map (fun i => currencies.getD i emptyCurrencyInfo)

/-! ### Initialization protocol (getSymbol / getCurrency exchanges) -/

/-- Failure of one request/response exchange on the websocket.  Go's
three error paths of `getSymbol`/`getCurrency` — `WriteMessage` error,
`ReadMessage` error, `json.Unmarshal` error — each abort the exchange
with a non-nil error; they are collapsed into one value type. -/
inductive wsError where
  | writeFailed
  | readFailed
  | decodeFailed
deriving DecidableEq, Repr

/-- `Result` payload of a `getSymbol` response (main.go 117-126). -/
structure getSymbolResult where
  ID : String
  BaseCurrency : String
  QuoteCurrency : String
  QuantityIncrement : String
  TickSize : String
  TakeLiquidityRate : String
  ProvideLiquidityRate : String
  FeeCurrency : String
deriving DecidableEq, Repr

/-- Response of the `getSymbol` API (struct `getSymbolResponse`,
main.go 115-128). -/
structure getSymbolResponse where
  Jsonrpc : String
  Result : getSymbolResult
  ID : Int
deriving DecidableEq, Repr

/-- `Result` payload of a `getCurrency` response (main.go 194-209). -/
structure getCurrencyResult where
  ID : String
  FullName : String
  Crypto : Bool
  PayinEnabled : Bool
  PayinPaymentID : Bool
  PayinConfirmations : Int
  PayoutEnabled : Bool
  PayoutIsPaymentID : Bool
  TransferEnabled : Bool
  Delisted : Bool
  PayoutFee : String
  PayoutMinimalAmount : String
  PrecisionPayout : Int
  PrecisionTransfer : Int
deriving DecidableEq, Repr

/-- Response of the `getCurrency` API (struct `getCurrencyResponse`,
main.go 192-211). -/
structure getCurrencyResponse where
  Jsonrpc : String
  Result : getCurrencyResult
  ID : Int
deriving DecidableEq, Repr

/-- Model of the websocket connection during startup: the outcome of a
`getSymbol` exchange per symbol (main.go 131-156), of a `getCurrency`
exchange per currency id (main.go 214-239), and whether the
`subscribeToTicker` write for a symbol succeeds (main.go 166-177). -/
structure initOracle where
  getSymbolResp : String → Except wsError getSymbolResponse
  getCurrencyResp : String → Except wsError getCurrencyResponse
  subscribeOk : String → Bool

/-- The loop body of `initializeCurrencyInfo` (main.go 255-273),
threading the loop index `i`.  For each symbol: run `getSymbol`,
returning its error on failure; write `FeeCurrency` and `ID` into slot
`i`; run `getCurrency` on the just-written id, returning its error on
failure; write `FullName` into slot `i`.  Because `currencies` is a
global in Go, the (possibly partially updated) store is returned
alongside the error: an early error return leaves the writes already
made in place. -/
def initializeCurrencyInfoAux (oracle : initOracle) (symbols : List String)
    (i : Nat) (currencies : List currencyInfo) :
    Option wsError × List currencyInfo :=
  match symbols with
  | [] => (none, currencies)
  | sym :: rest =>
    match oracle.getSymbolResp sym with
    | .error e => (some e, currencies)
    | .ok gs =>
      let c := currencies.getD i emptyCurrencyInfo
      let c1 := { c with FeeCurrency := gs.Result.FeeCurrency, ID := gs.Result.BaseCurrency }
      let currencies1 := currencies.set i c1
      match oracle.getCurrencyResp c1.ID with
      | .error e => (some e, currencies1)
      | .ok gcs =>
        initializeCurrencyInfoAux oracle rest (i + 1)
          (currencies1.set i { c1 with FullName := gcs.Result.FullName })

/-- `initializeCurrencyInfo` (main.go 255-273): resolve the static
fields of every configured symbol in configuration order, aborting the
sequence on the first failed exchange. -/
def initializeCurrencyInfo (oracle : initOracle) (symbols : List String)
    (currencies : List currencyInfo) : Option wsError × List currencyInfo :=
  initializeCurrencyInfoAux oracle symbols 0 currencies

/-! ### Streaming phase: one iteration of the ingestion goroutine -/

/-- One inbound item of the ingestion goroutine (main.go 349-364):
either `ReadMessage` fails, or it yields a message that does
(`some tu`) or does not (`none`) unmarshal as a `tickerUpdate`. -/
inductive inboundMessage where
  | readError
  | message (decoded : Option tickerUpdate)
deriving DecidableEq, Repr

/-- Outcome of one iteration of the ingestion goroutine. -/
inductive loopOutcome where
  | terminated
  | panicked
  | continued (currencies : List currencyInfo)
deriving DecidableEq, Repr

/-- One iteration of the ingestion goroutine (main.go 349-364): a read
error logs and returns (loop terminates); an unmarshal failure calls
`panic(err)`, which is process-ending; otherwise `setCurrencyInfo`
applies the event and the loop continues (`panicked` also covers the
out-of-range index panic inside `setCurrencyInfo`, unreachable with a
nonempty store). -/
def ingestStep (idx : String → Option Nat) (currencies : List currencyInfo)
    (msg : inboundMessage) : loopOutcome :=
  match msg with
  | .readError => .terminated
  | .message none => .panicked
  | .message (some tu) =>
    match setCurrencyInfo idx currencies tu with
    | none => .panicked
    | some cs => .continued cs

/-- A sequence of successfully decoded events applied in order by the
ingestion goroutine (`none` = an application panicked). -/
def applyEvents (idx : String → Option Nat) (currencies : List currencyInfo)
    (tus : List tickerUpdate) : Option (List currencyInfo) :=
  List.foldlM (setCurrencyInfo idx) currencies tus

/-! ### main: the startup sequence (main.go 338-381) -/

/-- What the startup sequence of `main` leaves behind: the configured
symbols, the store after initialization, the error `initializeCurrencyInfo`
returned, and whether `main` reaches the HTTP-serving stage. -/
structure startupOutcome where
  symbols : List String
  currencies : List currencyInfo
  initError : Option wsError
  serves : Bool

/-- The startup sequence of `main` (main.go 338-381): `doConfig`, then
`initializeCurrencyInfo` — whose returned error `main` DISCARDS at line
346 (`initializeCurrencyInfo(c)` with no error check) — then one
`subscribeToTicker` per symbol, returning early (never serving) if any
subscribe write fails, and otherwise starting the HTTP server.  The
record field `initError` is what `initializeCurrencyInfo` returned;
note that `serves` does not depend on it. -/
def mainStartup (envResult : Option appConfiguration) (oracle : initOracle) :
    startupOutcome :=
  let st := doConfig envResult
  let initResult := initializeCurrencyInfo oracle st.appConf.Symbols st.currencies
  { symbols := st.appConf.Symbols
    currencies := initResult.2
    initError := initResult.1
    serves := st.appConf.Symbols.all oracle.subscribeOk }

/-! ### Fine-grained model of one slot under its mutex

`setCurrencyInfo` overwrites the six quote fields one assignment at a
time (main.go 279-284), but only between `Lock()` and `Unlock()` of the
slot's mutex (main.go 278, 285).  `getSingleCurrency` and
`getAllCurrencies` copy a record only while holding the same mutex
(main.go 301-304, 318-320).  To reason about tearing we model the
writer's execution on one slot as a trace of atomic actions — lock,
six single-field writes, unlock — and the mutex discipline as: a
reader's critical section cannot overlap the writer's, so a read can
only observe the record at trace points where the lock is free. -/

/-- An atomic action of the ingestion writer on one slot. -/
inductive quoteAction where
  | lock
  | unlock
  | writeAsk (v : String)
  | writeBid (v : String)
  | writeLast (v : String)
  | writeOpen (v : String)
  | writeLow (v : String)
  | writeHigh (v : String)
deriving DecidableEq, Repr

/-- Effect of one atomic action on the slot's record. -/
def applyAction (c : currencyInfo) : quoteAction → currencyInfo
  | .lock => c
  | .unlock => c
  | .writeAsk v => { c with Ask := v }
  | .writeBid v => { c with Bid := v }
  | .writeLast v => { c with Last := v }
  | .writeOpen v => { c with Open := v }
  | .writeLow v => { c with Low := v }
  | .writeHigh v => { c with High := v }

/-- Whether the slot's mutex is held after an action. -/
def lockAfter (held : Bool) : quoteAction → Bool
  | .lock => true
  | .unlock => false
  | _ => held

/-- The action trace of one `setCurrencyInfo` critical section for
fields `f` (main.go 278-285, in source order). -/
def writeQuoteTrace (f : quoteFields) : List quoteAction :=
  [.lock, .writeAsk f.Ask, .writeBid f.Bid, .writeLast f.Last,
   .writeOpen f.Open, .writeLow f.Low, .writeHigh f.High, .unlock]

/-- All intermediate points of a trace: the record value and the lock
state before the first action and after each action. -/
def runTrace (c : currencyInfo) (held : Bool) :
    List quoteAction → List (currencyInfo × Bool)
  | [] => [(c, held)]
  | a :: as => (c, held) :: runTrace (applyAction c a) (lockAfter held a) as

/-- The records a reader can observe while the writer performs the
`writeQuote` calls `fs` in order on a slot holding `c`: by mutual
exclusion, exactly the trace points where the lock is free. -/
def observableRecords (c : currencyInfo) (fs : List quoteFields) :
    List currencyInfo :=
  ((runTrace c false (fs.flatMap writeQuoteTrace)).filter (fun p => !p.2)).map
    (fun p => p.1)

/-! ### Concrete sample values used to evaluate the model -/

/-- A parsed configuration with the two symbols of the README example. -/
def sampleConf : appConfiguration :=
  { Hostname := "localhost", Port := "8080", Symbols := ["ETHBTC", "BTCUSD"] }

/-- A streaming event for the unregistered symbol `XXXYYY`. -/
def xxxyyyEvent : tickerUpdate :=
  { Jsonrpc := "2.0", Method := "ticker"
    Params := { Ask := "0.1", Bid := "0.2", Last := "0.3", Open := "0.4"
                Low := "0.5", High := "0.6", Volume := "9", VolumeQuote := "8"
                Timestamp := "t", Symbol := "XXXYYY" } }

/-- The store contents after `xxxyyyEvent` hits the freshly allocated
two-slot store: slot 0 carries the event's quote fields. -/
def xxStoreAfter : List currencyInfo :=
  [writeQuote emptyCurrencyInfo (quoteOfUpdate xxxyyyEvent), emptyCurrencyInfo]

/-- A well-formed `getSymbol` response. -/
def sampleGetSymbolResponse : getSymbolResponse :=
  { Jsonrpc := "2.0"
    Result := { ID := "ETHBTC", BaseCurrency := "ETH", QuoteCurrency := "BTC"
                QuantityIncrement := "0.0001", TickSize := "0.000001"
                TakeLiquidityRate := "0.001", ProvideLiquidityRate := "-0.0001"
                FeeCurrency := "BTC" }
    ID := 123 }

/-- A well-formed `getCurrency` response. -/
def sampleGetCurrencyResponse : getCurrencyResponse :=
  { Jsonrpc := "2.0"
    Result := { ID := "ETH", FullName := "Ethereum", Crypto := true
                PayinEnabled := true, PayinPaymentID := false
                PayinConfirmations := 2, PayoutEnabled := true
                PayoutIsPaymentID := false, TransferEnabled := true
                Delisted := false, PayoutFee := "0.001"
                PayoutMinimalAmount := "0.01", PrecisionPayout := 10
                PrecisionTransfer := 10 }
    ID := 123 }

/-- A connection on which every exchange and subscribe succeeds. -/
def allOkOracle : initOracle :=
  { getSymbolResp := fun _ => .ok sampleGetSymbolResponse
    getCurrencyResp := fun _ => .ok sampleGetCurrencyResponse
    subscribeOk := fun _ => true }

/-- A connection on which every `getSymbol` read fails (so the first
initialization exchange already fails) while subscribes succeed. -/
def failingInitOracle : initOracle :=
  { getSymbolResp := fun _ => .error .readFailed
    getCurrencyResp := fun _ => .error .readFailed
    subscribeOk := fun _ => true }

/-- Sample quote fields, first update. -/
def sampleF1 : quoteFields :=
  { Ask := "1", Bid := "2", Last := "3", Open := "4", Low := "5", High := "6" }

/-- Sample quote fields, second update. -/
def sampleF2 : quoteFields :=
  { Ask := "a", Bid := "b", Last := "c", Open := "d", Low := "e", High := "f" }

/-- A ticker-update event for `ETHBTC` with the quote strings of the
spec's scenario. -/
def ethbtcEvent : tickerUpdate :=
  { Jsonrpc := "2.0", Method := "ticker"
    Params := { Ask := "0.054464", Bid := "0.054463", Last := "0.054463"
                Open := "0.057133", Low := "0.053615", High := "0.057559"
                Volume := "1", VolumeQuote := "2", Timestamp := "t"
                Symbol := "ETHBTC" } }

/-- The record that initialization writes into a slot when both of its
exchanges return the sample responses. -/
def sampleInitRecord : currencyInfo :=
  { ID := "ETH", FullName := "Ethereum", Ask := "", Bid := "", Last := ""
    Open := "", Low := "", High := "", FeeCurrency := "BTC" }

/-- A connection on which initialization succeeds for `ETHBTC` but the
`getSymbol` exchange for every other symbol fails: initialization stops
part-way with only some slots' static fields resolved. -/
def partialFailOracle : initOracle :=
  { getSymbolResp := fun s =>
      if s = "ETHBTC" then .ok sampleGetSymbolResponse else .error .readFailed
    getCurrencyResp := fun _ => .ok sampleGetCurrencyResponse
    subscribeOk := fun _ => true }

/-- The store after configuring `sampleConf`, initializing against
`allOkOracle` and ingesting `ethbtcEvent` (which targets slot 0). -/
def c8Store : List currencyInfo :=
  [writeQuote sampleInitRecord (quoteOfUpdate ethbtcEvent), sampleInitRecord]

/-! ### Helper lemmas on the Key Registry -/

/-- The Go map build is last-write-wins: looking up `s` after inserting
the whole list starting at index `i` yields `i` plus the index of the
last occurrence of `s`, or falls through to the prior map. -/
theorem buildIndexAux_eq (symbols : List String) (i : Nat)
    (m : String → Option Nat) (s : String) :
    buildIndexAux symbols i m s =
      match lastIdxOf? symbols s with
      | some j => some (i + j)
      | none => m s := by
  induction symbols generalizing i m with
  | nil => simp [buildIndexAux, lastIdxOf?]
  | cons a t ih =>
    simp only [buildIndexAux, lastIdxOf?]
    rw [ih]
    cases h : lastIdxOf? t s with
    | some j =>
      simp only [h]
      congr 1
      omega
    | none =>
      simp only [h, insertIdx]
      by_cases hs : s = a
      · simp [hs]
      · have ha : ¬a = s := fun hh => hs hh.symm
        simp [hs, ha]

/-- A symbol that never occurs has no last occurrence. -/
theorem lastIdxOf?_eq_none (l : List String) (s : String) (h : s ∉ l) :
    lastIdxOf? l s = none := by
  induction l with
  | nil => rfl
  | cons a t ih =>
    simp only [List.mem_cons, not_or] at h
    have ha : ¬a = s := fun hh => h.1 hh.symm
    simp [lastIdxOf?, ih h.2, ha]

/-- A symbol that occurs has a last occurrence. -/
theorem lastIdxOf?_isSome (l : List String) (s : String) (h : s ∈ l) :
    ∃ j, lastIdxOf? l s = some j := by
  induction l with
  | nil => cases h
  | cons a t ih =>
    simp only [lastIdxOf?]
    cases hlt : lastIdxOf? t s with
    | some j => exact ⟨j + 1, rfl⟩
    | none =>
      rcases List.mem_cons.mp h with has | hst
      · exact ⟨0, by simp [has]⟩
      · rcases ih hst with ⟨j, hj⟩
        rw [hj] at hlt
        cases hlt

/-- The last occurrence is an index into the list. -/
theorem lastIdxOf?_lt_length (l : List String) (s : String) (j : Nat)
    (h : lastIdxOf? l s = some j) : j < l.length := by
  induction l generalizing j with
  | nil => cases h
  | cons a t ih =>
    simp only [lastIdxOf?] at h
    cases hlt : lastIdxOf? t s with
    | some k =>
      rw [hlt] at h
      cases h
      have := ih k hlt
      simp
      omega
    | none =>
      rw [hlt] at h
      by_cases has : a = s
      · simp [has] at h
        simp [← h]
      · simp [has] at h

/-- If `l` holds `s` at index `i` and at no later index, then `i` is the
last occurrence. -/
theorem lastIdxOf?_of_last_occurrence (l : List String) (s : String) (i : Nat)
    (hi : i < l.length) (hget : l.get ⟨i, hi⟩ = s)
    (hlast : ∀ j (hj : j < l.length), i < j → l.get ⟨j, hj⟩ ≠ s) :
    lastIdxOf? l s = some i := by
  induction l generalizing i with
  | nil => cases hi
  | cons a t ih =>
    cases i with
    | zero =>
      have hst : s ∉ t := by
        intro hmem
        rcases List.mem_iff_get.mp hmem with ⟨⟨j, hj⟩, hjget⟩
        exact hlast (j + 1) (by simpa using hj) (Nat.succ_pos j)
          (by simpa using hjget)
      have ha : a = s := by simpa using hget
      subst ha
      simp [lastIdxOf?, lastIdxOf?_eq_none t a hst]
    | succ k =>
      have hk : k < t.length := by simpa using hi
      have hkget : t.get ⟨k, hk⟩ = s := by simpa using hget
      have hklast : ∀ j (hj : j < t.length), k < j → t.get ⟨j, hj⟩ ≠ s := by
        intro j hj hkj
        have := hlast (j + 1) (by simpa using hj) (by omega)
        simpa using this
      simp [lastIdxOf?, ih k hk hkget hklast]

/-- Lookup of an unregistered symbol yields `none`. -/
theorem symbolToIndex_eq_none (symbols : List String) (s : String)
    (h : s ∉ symbols) : symbolToIndex symbols s = none := by
  unfold symbolToIndex
  rw [buildIndexAux_eq, lastIdxOf?_eq_none symbols s h]

/-- Lookup of a registered symbol yields its last occurrence index. -/
theorem symbolToIndex_of_last_occurrence (symbols : List String) (s : String)
    (i : Nat) (hi : i < symbols.length) (hget : symbols.get ⟨i, hi⟩ = s)
    (hlast : ∀ j (hj : j < symbols.length), i < j → symbols.get ⟨j, hj⟩ ≠ s) :
    symbolToIndex symbols s = some i := by
  unfold symbolToIndex
  rw [buildIndexAux_eq, lastIdxOf?_of_last_occurrence symbols s i hi hget hlast]
  simp

/-- Lookup of a symbol that occurs in the list succeeds with an in-range
slot. -/
theorem symbolToIndex_isSome (symbols : List String) (s : String)
    (h : s ∈ symbols) :
    ∃ k, symbolToIndex symbols s = some k ∧ k < symbols.length := by
  rcases lastIdxOf?_isSome symbols s h with ⟨j, hj⟩
  refine ⟨j, ?_, lastIdxOf?_lt_length symbols s j hj⟩
  unfold symbolToIndex
  rw [buildIndexAux_eq, hj]
  simp

/-! ### Helper lemmas on the Snapshot Store -/

/-- The copy loop of `getAllCurrencies` reproduces the store exactly. -/
theorem getAllCurrencies_eq (cs : List currencyInfo) : getAllCurrencies cs = cs := by
  unfold getAllCurrencies
  apply List.ext_getElem
  · simp
  · intro n h1 h2
    simp [List.getD_eq_getElem?_getD, List.getElem?_eq_getElem h2]

/-- A successful `setCurrencyInfo` is a `set` at the looked-up index. -/
theorem setCurrencyInfo_eq_set (idx : String → Option Nat)
    (cs : List currencyInfo) (tu : tickerUpdate) (slot : Nat)
    (hidx : (idx tu.Params.Symbol).getD 0 = slot) (hslot : slot < cs.length) :
    setCurrencyInfo idx cs tu =
      some (cs.set slot (writeQuote (cs.get ⟨slot, hslot⟩) (quoteOfUpdate tu))) := by
  simp only [setCurrencyInfo, hidx]
  rw [List.get?_eq_getElem?, List.getElem?_eq_getElem hslot]
  rfl

/-- `setCurrencyInfo` preserves the length of the store. -/
theorem setCurrencyInfo_length (idx : String → Option Nat)
    (cs cs' : List currencyInfo) (tu : tickerUpdate)
    (h : setCurrencyInfo idx cs tu = some cs') : cs'.length = cs.length := by
  simp only [setCurrencyInfo] at h
  cases hg : cs.get? ((idx tu.Params.Symbol).getD 0) with
  | none => rw [hg] at h; cases h
  | some c =>
    rw [hg] at h
    cases h
    simp

/-- `setCurrencyInfo` leaves every slot other than the looked-up one
untouched. -/
theorem setCurrencyInfo_get?_ne (idx : String → Option Nat)
    (cs cs' : List currencyInfo) (tu : tickerUpdate) (j : Nat)
    (h : setCurrencyInfo idx cs tu = some cs')
    (hj : j ≠ (idx tu.Params.Symbol).getD 0) :
    cs'.get? j = cs.get? j := by
  simp only [setCurrencyInfo] at h
  cases hg : cs.get? ((idx tu.Params.Symbol).getD 0) with
  | none => rw [hg] at h; cases h
  | some c =>
    rw [hg] at h
    cases h
    exact List.get?_set_ne _ cs (fun he => hj he.symm)

/-- Setting slot `i` to a record carrying the same quote fields as the
record already there preserves every slot's quote fields. -/
theorem get?_set_map_quoteOf (cs : List currencyInfo) (i j : Nat)
    (c : currencyInfo)
    (hq : ∀ hi : i < cs.length, quoteOf c = quoteOf (cs.get ⟨i, hi⟩)) :
    ((cs.set i c).get? j).map quoteOf = (cs.get? j).map quoteOf := by
  by_cases hij : i = j
  · subst hij
    by_cases hi : i < cs.length
    · rw [List.get?_set_eq_of_lt _ hi]
      rw [List.get?_eq_getElem?, List.getElem?_eq_getElem hi]
      simp [hq hi, List.get_eq_getElem]
    · have hlen : cs.length ≤ i := by omega
      rw [List.get?_eq_getElem?, List.get?_eq_getElem?]
      rw [List.getElem?_eq_none (by simpa using hlen), List.getElem?_eq_none hlen]
  · rw [List.get?_set_ne _ _ hij]

/-- The initialization loop preserves the store length. -/
theorem initializeCurrencyInfoAux_length (oracle : initOracle)
    (symbols : List String) (i : Nat) (cs : List currencyInfo) :
    (initializeCurrencyInfoAux oracle symbols i cs).2.length = cs.length := by
  induction symbols generalizing i cs with
  | nil => rfl
  | cons sym rest ih =>
    simp only [initializeCurrencyInfoAux]
    cases h1 : oracle.getSymbolResp sym with
    | error e => rfl
    | ok gs =>
      cases h2 : oracle.getCurrencyResp gs.Result.BaseCurrency with
      | error e => simp [h2]
      | ok gcs =>
        simp only [h2]
        rw [ih]
        simp

/-- The initialization loop never changes any slot's quote fields: it
writes only `FeeCurrency`, `ID` and `FullName`. -/
theorem initializeCurrencyInfoAux_quoteOf (oracle : initOracle)
    (symbols : List String) (i : Nat) (cs : List currencyInfo) (j : Nat) :
    (((initializeCurrencyInfoAux oracle symbols i cs).2.get? j).map quoteOf)
      = ((cs.get? j).map quoteOf) := by
  induction symbols generalizing i cs with
  | nil => rfl
  | cons sym rest ih =>
    simp only [initializeCurrencyInfoAux]
    cases h1 : oracle.getSymbolResp sym with
    | error e => rfl
    | ok gs =>
      have hq1 : ∀ hi : i < cs.length,
          quoteOf { cs.getD i emptyCurrencyInfo with
                    FeeCurrency := gs.Result.FeeCurrency
                    ID := gs.Result.BaseCurrency } = quoteOf (cs.get ⟨i, hi⟩) := by
        intro hi
        simp [quoteOf, List.getD_eq_getElem?_getD, List.getElem?_eq_getElem hi,
          List.get_eq_getElem]
      cases h2 : oracle.getCurrencyResp gs.Result.BaseCurrency with
      | error e =>
        simp only [h2]
        exact get?_set_map_quoteOf cs i j _ hq1
      | ok gcs =>
        simp only [h2, List.set_set]
        rw [ih]
        exact get?_set_map_quoteOf cs i j _ hq1

/-- Applying a sequence of events preserves the store length. -/
theorem applyEvents_length (idx : String → Option Nat)
    (tus : List tickerUpdate) (cs cs' : List currencyInfo)
    (h : applyEvents idx cs tus = some cs') : cs'.length = cs.length := by
  induction tus generalizing cs with
  | nil =>
    simp only [applyEvents, List.foldlM] at h
    cases h
    rfl
  | cons tu rest ih =>
    simp only [applyEvents, List.foldlM] at h
    cases h1 : setCurrencyInfo idx cs tu with
    | none => rw [h1] at h; cases h
    | some cs1 =>
      rw [h1] at h
      have := ih cs1 h
      rw [this, setCurrencyInfo_length idx cs cs1 tu h1]

/-- A slot targeted by none of the applied events keeps its record. -/
theorem applyEvents_get?_not_target (idx : String → Option Nat)
    (tus : List tickerUpdate) (cs cs' : List currencyInfo) (i : Nat)
    (h : applyEvents idx cs tus = some cs')
    (hnot : ∀ tu ∈ tus, (idx tu.Params.Symbol).getD 0 ≠ i) :
    cs'.get? i = cs.get? i := by
  induction tus generalizing cs with
  | nil =>
    simp only [applyEvents, List.foldlM] at h
    cases h
    rfl
  | cons tu rest ih =>
    simp only [applyEvents, List.foldlM] at h
    cases h1 : setCurrencyInfo idx cs tu with
    | none => rw [h1] at h; cases h
    | some cs1 =>
      rw [h1] at h
      have hrest := ih cs1 h (fun tu' htu' => hnot tu' (List.mem_cons_of_mem tu htu'))
      rw [hrest]
      exact setCurrencyInfo_get?_ne idx cs cs1 tu i h1
        (fun he => hnot tu (List.mem_cons_self tu rest) he.symm)

/-! ### The claims -/

/-- C9: `register` (the map-building loop of `doConfig`) assigns each
symbol in the configured sequence the slot index equal to its position —
stated via the last-occurrence hypothesis, which for a duplicated symbol
says lookup returns the last-assigned slot (last write wins) and for a
duplicate-free list specialises to the symbol's unique position — and
registration never fails for a non-empty input: every listed symbol's
lookup is `some` slot in range. -/
theorem c9_register_position_last_write_wins (symbols : List String)
    (s t : String) (i : Nat) (hi : i < symbols.length)
    (hget : symbols.get ⟨i, hi⟩ = s)
    (hlast : ∀ j (hj : j < symbols.length), i < j → symbols.get ⟨j, hj⟩ ≠ s)
    (ht : t ∈ symbols) :
    symbolToIndex symbols s = some i ∧
    (symbolToIndex symbols t).isSome = true ∧
    (symbolToIndex symbols t).getD symbols.length < symbols.length := by
  obtain ⟨k, hk, hklt⟩ := symbolToIndex_isSome symbols t ht
  refine ⟨symbolToIndex_of_last_occurrence symbols s i hi hget hlast, ?_, ?_⟩
  · rw [hk]; rfl
  · rw [hk]; exact hklt

/-- Witness for C9 on the duplicated list `[ETHBTC, BTCUSD, ETHBTC]`:
the duplicated symbol resolves to its last position 2, and the lookup of
`BTCUSD` succeeds with an in-range slot. -/
theorem c9_witness :
    symbolToIndex ["ETHBTC", "BTCUSD", "ETHBTC"] "ETHBTC" = some 2 ∧
    (symbolToIndex ["ETHBTC", "BTCUSD", "ETHBTC"] "BTCUSD").isSome = true ∧
    (symbolToIndex ["ETHBTC", "BTCUSD", "ETHBTC"] "BTCUSD").getD
        (["ETHBTC", "BTCUSD", "ETHBTC"] : List String).length
      < (["ETHBTC", "BTCUSD", "ETHBTC"] : List String).length :=
  c9_register_position_last_write_wins ["ETHBTC", "BTCUSD", "ETHBTC"]
    "ETHBTC" "BTCUSD" 2 (by decide) (by decide) (by decide) (by decide)

/-- C7: for a symbol outside the Key Registry the lookup returns `none`
(never a default or zero slot), and `getSingleCurrency` surfaces it as
the normal unsupported-symbol response — constructor `notFound`, which
is a `some` result (not an internal failure) and by constructor
disjointness is not the record of slot 0 or of any slot. -/
theorem c7_unregistered_symbol_not_found (symbols : List String)
    (currencies : List currencyInfo) (s : String) (h : s ∉ symbols) :
    symbolToIndex symbols s = none ∧
    getSingleCurrency symbols (symbolToIndex symbols) currencies s =
      some (.notFound s symbols) := by
  have hn := symbolToIndex_eq_none symbols s h
  exact ⟨hn, by simp [getSingleCurrency, hn]⟩

/-- Witness for C7: querying `XXXYYY` against the two-symbol registry. -/
theorem c7_witness :
    symbolToIndex ["ETHBTC", "BTCUSD"] "XXXYYY" = none ∧
    getSingleCurrency ["ETHBTC", "BTCUSD"]
        (symbolToIndex ["ETHBTC", "BTCUSD"])
        (List.replicate 2 emptyCurrencyInfo) "XXXYYY" =
      some (.notFound "XXXYYY" ["ETHBTC", "BTCUSD"]) :=
  c7_unregistered_symbol_not_found ["ETHBTC", "BTCUSD"]
    (List.replicate 2 emptyCurrencyInfo) "XXXYYY" (by decide)

/-- C8: for every configured symbol list, after initialization and any
sequence of ingested events, `getAllCurrencies` returns the store
itself — exactly one `currencyInfo` record per slot, the `i`-th entry
being slot `i`'s record (slot order = configuration order by the
index-aligned construction) — and its length equals the number of
configured symbols. -/
theorem c8_readAll_one_record_per_slot (envResult : Option appConfiguration)
    (oracle : initOracle) (tus : List tickerUpdate)
    (cs' : List currencyInfo)
    (h : applyEvents (doConfig envResult).symbolIdx
        (initializeCurrencyInfo oracle (doConfig envResult).appConf.Symbols
          (doConfig envResult).currencies).2 tus = some cs') :
    getAllCurrencies cs' = cs' ∧
    (getAllCurrencies cs').length = (doConfig envResult).appConf.Symbols.length := by
  have h1 := applyEvents_length _ tus _ cs' h
  have h2 := initializeCurrencyInfoAux_length oracle
    (doConfig envResult).appConf.Symbols 0 (doConfig envResult).currencies
  have h3 : (doConfig envResult).currencies.length
      = (doConfig envResult).appConf.Symbols.length := by
    cases envResult <;> simp [doConfig]
  rw [getAllCurrencies_eq]
  refine ⟨rfl, ?_⟩
  simp only [initializeCurrencyInfo] at h1
  rw [h1, h2, h3]

/-- Witness for C8: two configured symbols, successful initialization,
one ingested event; `readAll` is the two-record store. -/
theorem c8_witness :
    getAllCurrencies c8Store = c8Store ∧
    (getAllCurrencies c8Store).length =
      (doConfig (some sampleConf)).appConf.Symbols.length :=
  c8_readAll_one_record_per_slot (some sampleConf) allOkOracle
    [ethbtcEvent] c8Store (by decide)

/-- C10: after initialization (which writes only `ID`, `FeeCurrency` and
`FullName` into the zero-valued store allocated by `doConfig`), a slot
targeted by none of the ingested events still has all six quote fields
equal to the empty string. -/
theorem c10_quotes_empty_before_first_event (envResult : Option appConfiguration)
    (oracle : initOracle) (tus : List tickerUpdate) (cs' : List currencyInfo)
    (i : Nat)
    (happly : applyEvents (doConfig envResult).symbolIdx
        (initializeCurrencyInfo oracle (doConfig envResult).appConf.Symbols
          (doConfig envResult).currencies).2 tus = some cs')
    (hnot : ∀ tu ∈ tus, ((doConfig envResult).symbolIdx tu.Params.Symbol).getD 0 ≠ i)
    (hi : i < cs'.length) :
    quoteOf (cs'.get ⟨i, hi⟩) = quoteOf emptyCurrencyInfo := by
  have h1 : cs'.get? i =
      ((initializeCurrencyInfo oracle (doConfig envResult).appConf.Symbols
        (doConfig envResult).currencies).2).get? i :=
    applyEvents_get?_not_target _ tus _ cs' i happly hnot
  have h2 := initializeCurrencyInfoAux_quoteOf oracle
    (doConfig envResult).appConf.Symbols 0 (doConfig envResult).currencies i
  have hlen : i < (doConfig envResult).currencies.length := by
    have ha := applyEvents_length _ tus _ cs' happly
    have hb := initializeCurrencyInfoAux_length oracle
      (doConfig envResult).appConf.Symbols 0 (doConfig envResult).currencies
    simp only [initializeCurrencyInfo] at ha
    omega
  have h3 : (doConfig envResult).currencies.get? i = some emptyCurrencyInfo := by
    rw [List.get?_eq_getElem?, List.getElem?_eq_getElem hlen]
    have : (doConfig envResult).currencies =
        List.replicate (doConfig envResult).appConf.Symbols.length emptyCurrencyInfo := by
      cases envResult <;> rfl
    simp [this]
  have hcs : cs'.get? i = some (cs'.get ⟨i, hi⟩) := by
    rw [List.get?_eq_getElem?, List.getElem?_eq_getElem hi, List.get_eq_getElem]
  have : (cs'.get? i).map quoteOf = some (quoteOf emptyCurrencyInfo) := by
    rw [h1]
    simp only [initializeCurrencyInfo] at h2 ⊢
    rw [h2, h3]
    rfl
  rw [hcs] at this
  simpa using this

/-- Witness for C10: after initialization and one event for slot 0,
slot 1's quote fields are all empty. -/
theorem c10_witness :
    quoteOf (c8Store.get ⟨1, by decide⟩) = quoteOf emptyCurrencyInfo :=
  c10_quotes_empty_before_first_event (some sampleConf) allOkOracle
    [ethbtcEvent] c8Store 1 (by decide) (by decide) (by decide)

/-- C4: in the streaming phase, a message that does not decode as a
ticker-update event makes the iteration outcome `panicked`
(`panic(err)` at main.go 359, which is process-ending); the loop never
classifies such a message as `continued`. -/
theorem c4_streaming_decode_failure_is_fatal (idx : String → Option Nat)
    (currencies : List currencyInfo) :
    ingestStep idx currencies (.message none) = .panicked :=
  rfl

/-- C5: for a registered symbol resolving to a valid slot, one
`setCurrencyInfo` is exactly a `set` of that slot to `writeQuote` of its
old record; the subsequent `getSingleCurrency` read of that slot returns
a record whose six quote fields equal the written fields and whose
`ID`, `FullName` and `FeeCurrency` are unchanged; and every other slot's
record is untouched (here instantiated at any other index `j`). -/
theorem c5_writeQuote_field_isolation (symbols : List String)
    (currencies : List currencyInfo) (tu : tickerUpdate) (slot : Nat)
    (hlook : symbolToIndex symbols tu.Params.Symbol = some slot)
    (hslot : slot < currencies.length) :
    setCurrencyInfo (symbolToIndex symbols) currencies tu =
      some (currencies.set slot
        (writeQuote (currencies.get ⟨slot, hslot⟩) (quoteOfUpdate tu))) ∧
    getSingleCurrency symbols (symbolToIndex symbols)
        (currencies.set slot
          (writeQuote (currencies.get ⟨slot, hslot⟩) (quoteOfUpdate tu)))
        tu.Params.Symbol =
      some (.found (writeQuote (currencies.get ⟨slot, hslot⟩) (quoteOfUpdate tu))) ∧
    quoteOf (writeQuote (currencies.get ⟨slot, hslot⟩) (quoteOfUpdate tu)) =
      quoteOfUpdate tu ∧
    (writeQuote (currencies.get ⟨slot, hslot⟩) (quoteOfUpdate tu)).ID =
      (currencies.get ⟨slot, hslot⟩).ID ∧
    (writeQuote (currencies.get ⟨slot, hslot⟩) (quoteOfUpdate tu)).FullName =
      (currencies.get ⟨slot, hslot⟩).FullName ∧
    (writeQuote (currencies.get ⟨slot, hslot⟩) (quoteOfUpdate tu)).FeeCurrency =
      (currencies.get ⟨slot, hslot⟩).FeeCurrency ∧
    ∀ j, j ≠ slot →
      (currencies.set slot
        (writeQuote (currencies.get ⟨slot, hslot⟩) (quoteOfUpdate tu))).get? j =
        currencies.get? j := by
  refine ⟨?_, ?_, rfl, rfl, rfl, rfl, ?_⟩
  · exact setCurrencyInfo_eq_set (symbolToIndex symbols) currencies tu slot
      (by rw [hlook]; rfl) hslot
  · simp only [getSingleCurrency, hlook]
    rw [List.get?_set_eq_of_lt _ hslot]
    rfl
  · intro j hj
    exact List.get?_set_ne _ currencies (fun he => hj he.symm)

/-- Witness for C5: `ethbtcEvent` on the freshly initialized two-slot
store, with the frame conjunct instantiated at the other slot 1. -/
theorem c5_witness :
    setCurrencyInfo (symbolToIndex sampleConf.Symbols)
        [sampleInitRecord, sampleInitRecord] ethbtcEvent =
      some ([sampleInitRecord, sampleInitRecord].set 0
        (writeQuote ([sampleInitRecord, sampleInitRecord].get ⟨0, by decide⟩)
          (quoteOfUpdate ethbtcEvent))) ∧
    getSingleCurrency sampleConf.Symbols (symbolToIndex sampleConf.Symbols)
        ([sampleInitRecord, sampleInitRecord].set 0
          (writeQuote ([sampleInitRecord, sampleInitRecord].get ⟨0, by decide⟩)
            (quoteOfUpdate ethbtcEvent)))
        ethbtcEvent.Params.Symbol =
      some (.found (writeQuote ([sampleInitRecord, sampleInitRecord].get ⟨0, by decide⟩)
        (quoteOfUpdate ethbtcEvent))) ∧
    quoteOf (writeQuote ([sampleInitRecord, sampleInitRecord].get ⟨0, by decide⟩)
        (quoteOfUpdate ethbtcEvent)) = quoteOfUpdate ethbtcEvent ∧
    (writeQuote ([sampleInitRecord, sampleInitRecord].get ⟨0, by decide⟩)
        (quoteOfUpdate ethbtcEvent)).ID =
      ([sampleInitRecord, sampleInitRecord].get ⟨0, by decide⟩).ID ∧
    (writeQuote ([sampleInitRecord, sampleInitRecord].get ⟨0, by decide⟩)
        (quoteOfUpdate ethbtcEvent)).FullName =
      ([sampleInitRecord, sampleInitRecord].get ⟨0, by decide⟩).FullName ∧
    (writeQuote ([sampleInitRecord, sampleInitRecord].get ⟨0, by decide⟩)
        (quoteOfUpdate ethbtcEvent)).FeeCurrency =
      ([sampleInitRecord, sampleInitRecord].get ⟨0, by decide⟩).FeeCurrency ∧
    ([sampleInitRecord, sampleInitRecord].set 0
        (writeQuote ([sampleInitRecord, sampleInitRecord].get ⟨0, by decide⟩)
          (quoteOfUpdate ethbtcEvent))).get? 1 =
      [sampleInitRecord, sampleInitRecord].get? 1 := by
  have h := c5_writeQuote_field_isolation sampleConf.Symbols
    [sampleInitRecord, sampleInitRecord] ethbtcEvent 0 (by decide) (by decide)
  exact ⟨h.1, h.2.1, h.2.2.1, h.2.2.2.1, h.2.2.2.2.1, h.2.2.2.2.2.1,
    h.2.2.2.2.2.2 1 (by decide)⟩

/-- C1 as stated is violated by the code (code bug, flagged by the spec
itself): `setCurrencyInfo` reads the map without the comma-ok form, so
the unregistered symbol `XXXYYY` defaults to slot 0 and the event's six
quote fields are written there.  Concretely: the lookup is `none`, yet
ingestion turns the fresh two-slot store into `xxStoreAfter`, whose
slot-0 quote fields are the event's; `readAll` before shows `Ask = ""`
at slot 0 and after shows `Ask = "0.1"`, so it is not byte-identical. -/
theorem c1_unknown_symbol_event_writes_slot_zero :
    (doConfig (some sampleConf)).symbolIdx "XXXYYY" = none ∧
    setCurrencyInfo (doConfig (some sampleConf)).symbolIdx
        (doConfig (some sampleConf)).currencies xxxyyyEvent = some xxStoreAfter ∧
    ((getAllCurrencies (doConfig (some sampleConf)).currencies).get? 0).map
        currencyInfo.Ask = some "" ∧
    ((getAllCurrencies xxStoreAfter).get? 0).map currencyInfo.Ask = some "0.1" ∧
    (xxStoreAfter.get? 0).map quoteOf = some (quoteOfUpdate xxxyyyEvent) := by
  decide

/-- C2 as stated is violated by the code (code bug): `main` calls
`initializeCurrencyInfo(c)` at main.go line 346 without checking the
returned error.  On a connection where initialization succeeds for
`ETHBTC` and then fails for `BTCUSD`, `initializeCurrencyInfo` aborts
and returns an error, yet `main` proceeds to subscribe and serve: the
process serves HTTP with slot 0 resolved and slot 1's static fields
still empty — exactly the partially-resolved serving state the claim
says cannot exist. -/
theorem c2_init_failure_still_serves :
    (mainStartup (some sampleConf) partialFailOracle).initError =
      some .readFailed ∧
    (mainStartup (some sampleConf) partialFailOracle).currencies =
      [sampleInitRecord, emptyCurrencyInfo] ∧
    (mainStartup (some sampleConf) partialFailOracle).serves = true := by
  decide

/-- C3 as stated fails on the code: when the environment's symbol list
is empty or malformed, `envconfig.Process` returns an error (modelled by
`envResult = none`), and `doConfig` does NOT abort — the commented
fallback at main.go 59-65 substitutes the default configuration
`BTCUSD, ETHBTC`, the registry and a two-slot store are constructed from
it, and with a healthy connection the process reaches the serving
stage. -/
theorem c3_counterexample_config_error_falls_back :
    (doConfig none).appConf.Symbols = ["BTCUSD", "ETHBTC"] ∧
    (doConfig none).currencies.length = 2 ∧
    (doConfig none).symbolIdx "BTCUSD" = some 0 ∧
    (mainStartup none allOkOracle).serves = true := by
  decide

/-- C3 amended: an empty or malformed configured symbol list is not
fatal; `doConfig` falls back to the default configuration
(`localhost:8080`, symbols `BTCUSD, ETHBTC`), constructs the registry
and the zero-valued two-slot store from the defaults, and startup
proceeds to serving whenever every subscribe write succeeds. -/
theorem c3_amended_config_error_uses_defaults (oracle : initOracle)
    (hsub : ∀ s, oracle.subscribeOk s = true) :
    (doConfig none).appConf =
      { Hostname := "localhost", Port := "8080", Symbols := ["BTCUSD", "ETHBTC"] } ∧
    (doConfig none).currencies = List.replicate 2 emptyCurrencyInfo ∧
    (mainStartup none oracle).serves = true := by
  refine ⟨rfl, rfl, ?_⟩
  simp [mainStartup, doConfig, hsub]

/-- Witness for the amended C3 at the all-successful connection. -/
theorem c3_amended_witness :
    (doConfig none).appConf =
      { Hostname := "localhost", Port := "8080", Symbols := ["BTCUSD", "ETHBTC"] } ∧
    (doConfig none).currencies = List.replicate 2 emptyCurrencyInfo ∧
    (mainStartup none allOkOracle).serves = true :=
  c3_amended_config_error_uses_defaults allOkOracle (fun _ => rfl)

set_option maxHeartbeats 2000000 in
/-- C6: no tearing under the per-slot mutex.  The writer applies the
update sequence `F1` then `F2` to a slot holding `c0` as fine-grained
field-by-field writes, but only inside lock/unlock pairs
(`writeQuoteTrace`); a `readOne` of the slot must itself take the lock,
so by mutual exclusion it can observe only the trace points where the
lock is free (`observableRecords`).  Every such observation carries the
six quote fields of a single completed `writeQuote` — exactly `F1`'s or
exactly `F2`'s, or the pre-update fields if the read completes before
the first write lands — never an interleaving of the two updates. -/
theorem c6_readOne_no_tearing (c0 : currencyInfo) (f1 f2 : quoteFields) :
    ∀ c ∈ observableRecords c0 [f1, f2],
      quoteOf c = quoteOf c0 ∨ quoteOf c = f1 ∨ quoteOf c = f2 := by
  intro c hc
  have hobs : observableRecords c0 [f1, f2] =
      [c0, writeQuote c0 f1, writeQuote (writeQuote c0 f1) f2] := rfl
  rw [hobs] at hc
  simp only [List.mem_cons, List.not_mem_nil, or_false] at hc
  rcases hc with h | h | h
  · subst h
    left
    rfl
  · subst h
    right
    left
    rfl
  · subst h
    right
    right
    rfl

/-- Witness for C6: the record after the completed first update is an
observable record, and its quote fields are exactly `sampleF1`'s. -/
theorem c6_witness :
    quoteOf (writeQuote emptyCurrencyInfo sampleF1) = quoteOf emptyCurrencyInfo ∨
    quoteOf (writeQuote emptyCurrencyInfo sampleF1) = sampleF1 ∨
    quoteOf (writeQuote emptyCurrencyInfo sampleF1) = sampleF2 :=
  c6_readOne_no_tearing emptyCurrencyInfo sampleF1 sampleF2
    (writeQuote emptyCurrencyInfo sampleF1) (by decide)

end Gows
